import Mathlib

/-!
Shallow embedding of the TravelMutualAid contract: data model, the five
commands (registerUser, createRequest, acceptRequest, completeRequest,
submitReview), and the trust-score recomputation. Identities (addresses)
are modelled as natural numbers with 0 playing the role of the zero
address; Solidity mappings are modelled as total functions returning the
default record; uint256 balances are modelled as integers so that
non-negativity is a real statement; a failing command reverts, i.e. the
step function keeps the pre-state on error.
-/

inductive RequestStatus where
  | Open
  | Matched
  | Completed
  | Cancelled
deriving DecidableEq, Repr

structure User where
  name : String
  location : String
  trustScore : Nat
  totalHelps : Nat
  totalReceived : Nat
  credits : Int
  registered : Bool
deriving DecidableEq, Repr

structure Request where
  id : Nat
  requester : Nat
  title : String
  description : String
  location : String
  timestamp : Nat
  status : RequestStatus
  helper : Nat
  helpType : Nat
deriving DecidableEq, Repr

structure Review where
  reviewer : Nat
  reviewed : Nat
  requestId : Nat
  rating : Nat
  comment : String
  timestamp : Nat
deriving DecidableEq, Repr

inductive Err where
  | AlreadyRegistered
  | InvalidHelpType
  | InsufficientCredit
  | RequestNotFound
  | RequestNotOpen
  | RequestNotMatched
  | RequestNotCompleted
  | SelfHelpForbidden
  | NotAuthorized
  | InvalidRating
  | InvalidReviewPair
deriving DecidableEq, Repr

structure State where
  users : Nat → User
  requests : Nat → Request
  requestReviews : Nat → List Review
  userReviews : Nat → List Review
  requestCount : Nat
  userAddresses : List Nat
  creditCosts : Nat → Nat

/-- Point update of a mapping, the semantics of `m[k] = v`. -/
def mapSet {α : Type} (f : Nat → α) (k : Nat) (v : α) : Nat → α :=
  fun x => if x = k then v else f x

/-- Default value of the `User` struct (all mapping slots start zeroed). -/
def emptyUser : User :=
  { name := "", location := "", trustScore := 0, totalHelps := 0,
    totalReceived := 0, credits := 0, registered := false }

/-- Default value of the `Request` struct. -/
def emptyRequest : Request :=
  { id := 0, requester := 0, title := "", description := "", location := "",
    timestamp := 0, status := RequestStatus.Open, helper := 0, helpType := 0 }

/-- State after the constructor ran: zeroed storage, then
`creditCosts[0] = 2; creditCosts[1] = 5; creditCosts[2] = 3`. -/
def initialState : State :=
  { users := fun _ => emptyUser,
    requests := fun _ => emptyRequest,
    requestReviews := fun _ => [],
    userReviews := fun _ => [],
    requestCount := 0,
    userAddresses := [],
    creditCosts := mapSet (mapSet (mapSet (fun _ => 0) 0 2) 1 5) 2 3 }

/-- `CREDIT_REWARD`: credits paid to a helper at match time. -/
def CREDIT_REWARD : Int := 1

/-- The inline auto-registration block shared by `createRequest` (with the
request location) and `acceptRequest` (with an empty location). -/
def ensureUser (s : State) (sender : Nat) (loc : String) : State :=
  if (s.users sender).registered then s
  else
    { s with
      users := mapSet s.users sender
        { name := "", location := loc, trustScore := 50, totalHelps := 0,
          totalReceived := 0, credits := 10, registered := true },
      userAddresses := s.userAddresses ++ [sender] }

/-- `registerUser(_name, _location)`. -/
def registerUser (s : State) (sender : Nat) (nm loc : String) :
    Except Err State :=
  if (s.users sender).registered then Except.error Err.AlreadyRegistered
  else
    Except.ok
      { s with
        users := mapSet s.users sender
          { name := nm, location := loc, trustScore := 50, totalHelps := 0,
            totalReceived := 0, credits := 10, registered := true },
        userAddresses := s.userAddresses ++ [sender] }

/-- `createRequest(_title, _description, _location, _helpType)`. -/
def createRequest (s : State) (sender : Nat) (title descr loc : String)
    (helpType : Nat) (ts : Nat) : Except Err State :=
  let s1 := ensureUser s sender loc
  let cost := s1.creditCosts helpType
  if cost = 0 then Except.error Err.InvalidHelpType
  else if (s1.users sender).credits < (cost : Int) then
    Except.error Err.InsufficientCredit
  else
    let u := s1.users sender
    let u2 := { u with credits := u.credits - (cost : Int) }
    let s2 := { s1 with users := mapSet s1.users sender u2 }
    let newCount := s2.requestCount + 1
    let s3 := { s2 with
                requestCount := newCount,
                requests := mapSet s2.requests newCount
                  { id := newCount, requester := sender, title := title,
                    description := descr, location := loc, timestamp := ts,
                    status := RequestStatus.Open, helper := 0,
                    helpType := helpType } }
    let u3 := s3.users sender
    let u4 := { u3 with totalReceived := u3.totalReceived + 1 }
    Except.ok { s3 with users := mapSet s3.users sender u4 }

/-- `acceptRequest(_requestId)`. -/
def acceptRequest (s : State) (sender : Nat) (requestId : Nat) :
    Except Err State :=
  let s1 := ensureUser s sender ""
  let request := s1.requests requestId
  if request.status ≠ RequestStatus.Open then Except.error Err.RequestNotOpen
  else if request.requester = sender then Except.error Err.SelfHelpForbidden
  else
    let matched :=
      { request with helper := sender, status := RequestStatus.Matched }
    let s2 := { s1 with requests := mapSet s1.requests requestId matched }
    let u := s2.users sender
    let u2 := { u with totalHelps := u.totalHelps + 1,
                       credits := u.credits + CREDIT_REWARD }
    Except.ok { s2 with users := mapSet s2.users sender u2 }

/-- `completeRequest(_requestId)`. -/
def completeRequest (s : State) (sender : Nat) (requestId : Nat) :
    Except Err State :=
  let request := s.requests requestId
  if sender = request.requester ∨ sender = request.helper then
    if request.status ≠ RequestStatus.Matched then
      Except.error Err.RequestNotMatched
    else
      let done := { request with status := RequestStatus.Completed }
      Except.ok { s with requests := mapSet s.requests requestId done }
  else Except.error Err.NotAuthorized

/-- Sum of the ratings of a list of reviews, as the accumulation loop in
`_updateTrustScore` computes it. -/
def sumRatings (l : List Review) : Nat :=
  l.foldl (fun acc r => acc + r.rating) 0

/-- `_updateTrustScore(_user)`: full recompute of the trust score from the
review history of the user; no-op when the history is empty. -/
def updateTrustScore (s : State) (user : Nat) : State :=
  let reviews := s.userReviews user
  if reviews.length = 0 then s
  else
    let avgRating := sumRatings reviews * 20 / reviews.length
    let u := s.users user
    let u2 := { u with trustScore := avgRating }
    { s with users := mapSet s.users user u2 }

/-- `submitReview(_requestId, _reviewed, _rating, _comment)`. -/
def submitReview (s : State) (sender : Nat) (requestId reviewed rating : Nat)
    (comment : String) (ts : Nat) : Except Err State :=
  if ¬(1 ≤ rating ∧ rating ≤ 5) then Except.error Err.InvalidRating
  else
    let request := s.requests requestId
    if (sender = request.requester ∧ reviewed = request.helper) ∨
       (sender = request.helper ∧ reviewed = request.requester) then
      if request.status ≠ RequestStatus.Completed then
        Except.error Err.RequestNotCompleted
      else
        let review : Review :=
          { reviewer := sender, reviewed := reviewed, requestId := requestId,
            rating := rating, comment := comment, timestamp := ts }
        let s1 := { s with
          requestReviews := mapSet s.requestReviews requestId
            (s.requestReviews requestId ++ [review]),
          userReviews := mapSet s.userReviews reviewed
            (s.userReviews reviewed ++ [review]) }
        Except.ok (updateTrustScore s1 reviewed)
    else Except.error Err.InvalidReviewPair

/-- `getCreditCost(_helpType)` view function. -/
def getCreditCost (s : State) (helpType : Nat) : Nat :=
  s.creditCosts helpType

/-- `getUserCredits(_user)` view function. -/
def getUserCredits (s : State) (user : Nat) : Int :=
  (s.users user).credits

/-- One external transaction, together with its environment (`msg.sender`
and, where the code reads it, `block.timestamp`). -/
inductive Command where
  | register (sender : Nat) (nm loc : String)
  | create (sender : Nat) (title descr loc : String) (helpType ts : Nat)
  | accept (sender : Nat) (requestId : Nat)
  | complete (sender : Nat) (requestId : Nat)
  | review (sender : Nat) (requestId reviewed rating : Nat)
      (comment : String) (ts : Nat)
deriving Repr

/-- The `msg.sender` of a command. -/
def Command.sender : Command → Nat
  | Command.register s _ _ => s
  | Command.create s _ _ _ _ _ => s
  | Command.accept s _ => s
  | Command.complete s _ => s
  | Command.review s _ _ _ _ _ => s

/-- Dispatch a command to the corresponding contract function. -/
def exec (s : State) : Command → Except Err State
  | Command.register sd nm loc => registerUser s sd nm loc
  | Command.create sd t d l ht ts => createRequest s sd t d l ht ts
  | Command.accept sd rid => acceptRequest s sd rid
  | Command.complete sd rid => completeRequest s sd rid
  | Command.review sd rid rvd rat c ts => submitReview s sd rid rvd rat c ts

/-- Transaction semantics: a failing command reverts every storage write. -/
def step (s : State) (c : Command) : State :=
  match exec s c with
  | Except.ok t => t
  | Except.error _ => s

/-- State reached by a sequence of transactions from the deployed contract. -/
def run (cmds : List Command) : State :=
  cmds.foldl step initialState

/-- Whether a command result is a success. -/
def isOk : Except Err State → Bool
  | Except.ok _ => true
  | Except.error _ => false

/-- The trust score dictated by the stored review history of an identity:
50 while no review targets it, otherwise the floored average rating scaled
by 20, exactly as `_updateTrustScore` recomputes it. -/
def trustExpected (s : State) (x : Nat) : Nat :=
  if (s.userReviews x).length = 0 then 50
  else sumRatings (s.userReviews x) * 20 / (s.userReviews x).length

/-- Inductive invariant tying every registered account to its review
history (commands issued by nonzero identities): the trust score matches
the history, unregistered nonzero identities have no reviews, all stored
ratings are in 1..5, matched or completed requests have a nonzero
registered helper, and nonzero requesters are registered. -/
def TrustInv (s : State) : Prop :=
  (∀ x, (s.users x).registered = true →
    (s.users x).trustScore = trustExpected s x) ∧
  (∀ x, x ≠ 0 → (s.users x).registered = false → s.userReviews x = []) ∧
  (∀ x r, r ∈ s.userReviews x → 1 ≤ r.rating ∧ r.rating ≤ 5) ∧
  (∀ k, ((s.requests k).status = RequestStatus.Matched ∨
      (s.requests k).status = RequestStatus.Completed) →
    (s.requests k).helper ≠ 0 ∧
    (s.users ((s.requests k).helper)).registered = true) ∧
  (∀ k, (s.requests k).requester ≠ 0 →
    (s.users ((s.requests k).requester)).registered = true)

/-! ## Concrete demo states (scenario A of the spec plus reviews) -/

def sAlice : State := step initialState (Command.register 1 "Alice" "Paris")

def sBob : State := step sAlice (Command.register 2 "Bob" "Paris")

def sCreated : State :=
  step sBob (Command.create 1 "Ride" "need pickup" "Paris" 0 0)

def sMatched : State := step sCreated (Command.accept 2 1)

def sDone : State := step sMatched (Command.complete 1 1)

/-- The command list leading to `sDone`, for theorems quantified over runs. -/
def demoCmds : List Command :=
  [Command.register 1 "Alice" "Paris", Command.register 2 "Bob" "Paris",
   Command.create 1 "Ride" "need pickup" "Paris" 0 0, Command.accept 2 1,
   Command.complete 1 1]


/-! ## Basic lemmas about the state primitives -/

theorem mapSet_self {α : Type} (f : Nat → α) (k : Nat) (v : α) :
    mapSet f k v k = v := by
  simp [mapSet]

theorem mapSet_ne {α : Type} (f : Nat → α) (k : Nat) (v : α) (x : Nat)
    (h : x ≠ k) : mapSet f k v x = f x := by
  simp [mapSet, h]

theorem mapSet_override {α : Type} (f : Nat → α) (k : Nat) (a b : α) :
    mapSet (mapSet f k a) k b = mapSet f k b := by
  funext x
  by_cases h : x = k <;> simp [mapSet, h]

theorem ensureUser_requests (s : State) (sd : Nat) (l : String) :
    (ensureUser s sd l).requests = s.requests := by
  unfold ensureUser
  split <;> rfl

theorem ensureUser_requestCount (s : State) (sd : Nat) (l : String) :
    (ensureUser s sd l).requestCount = s.requestCount := by
  unfold ensureUser
  split <;> rfl

theorem ensureUser_requestReviews (s : State) (sd : Nat) (l : String) :
    (ensureUser s sd l).requestReviews = s.requestReviews := by
  unfold ensureUser
  split <;> rfl

theorem ensureUser_userReviews (s : State) (sd : Nat) (l : String) :
    (ensureUser s sd l).userReviews = s.userReviews := by
  unfold ensureUser
  split <;> rfl

theorem ensureUser_creditCosts (s : State) (sd : Nat) (l : String) :
    (ensureUser s sd l).creditCosts = s.creditCosts := by
  unfold ensureUser
  split <;> rfl

theorem ensureUser_users_cases (s : State) (sd : Nat) (l : String) (x : Nat) :
    (ensureUser s sd l).users x = s.users x ∨
    ((s.users sd).registered = false ∧ x = sd ∧
     (ensureUser s sd l).users x =
       { name := "", location := l, trustScore := 50, totalHelps := 0,
         totalReceived := 0, credits := 10, registered := true }) := by
  unfold ensureUser
  split
  · exact Or.inl rfl
  · next hreg =>
    by_cases hx : x = sd
    · subst hx
      exact Or.inr ⟨Bool.not_eq_true _ ▸ (by simpa using hreg), rfl,
        by simp [mapSet]⟩
    · exact Or.inl (by simp [mapSet, hx])

theorem ensureUser_users_ne (s : State) (sd : Nat) (l : String) (x : Nat)
    (h : x ≠ sd) : (ensureUser s sd l).users x = s.users x := by
  unfold ensureUser
  split
  · rfl
  · simp [mapSet, h]

theorem ensureUser_registered (s : State) (sd : Nat) (l : String) :
    ((ensureUser s sd l).users sd).registered = true := by
  unfold ensureUser
  split
  · next h => simpa using h
  · simp [mapSet]

theorem updateTrustScore_requests (s : State) (u : Nat) :
    (updateTrustScore s u).requests = s.requests := by
  simp only [updateTrustScore]
  split <;> rfl

theorem updateTrustScore_requestCount (s : State) (u : Nat) :
    (updateTrustScore s u).requestCount = s.requestCount := by
  simp only [updateTrustScore]
  split <;> rfl

theorem updateTrustScore_requestReviews (s : State) (u : Nat) :
    (updateTrustScore s u).requestReviews = s.requestReviews := by
  simp only [updateTrustScore]
  split <;> rfl

theorem updateTrustScore_userReviews (s : State) (u : Nat) :
    (updateTrustScore s u).userReviews = s.userReviews := by
  simp only [updateTrustScore]
  split <;> rfl

theorem updateTrustScore_userAddresses (s : State) (u : Nat) :
    (updateTrustScore s u).userAddresses = s.userAddresses := by
  simp only [updateTrustScore]
  split <;> rfl

theorem updateTrustScore_creditCosts (s : State) (u : Nat) :
    (updateTrustScore s u).creditCosts = s.creditCosts := by
  simp only [updateTrustScore]
  split <;> rfl

theorem updateTrustScore_users_ne (s : State) (u x : Nat) (h : x ≠ u) :
    (updateTrustScore s u).users x = s.users x := by
  simp only [updateTrustScore]
  split
  · rfl
  · simp [mapSet, h]

theorem updateTrustScore_users_cases (s : State) (u x : Nat) :
    (updateTrustScore s u).users x = s.users x ∨
    (x = u ∧ (s.userReviews u).length ≠ 0 ∧
     (updateTrustScore s u).users x =
       { s.users u with
         trustScore := sumRatings (s.userReviews u) * 20 /
           (s.userReviews u).length }) := by
  simp only [updateTrustScore]
  split
  · exact Or.inl rfl
  · next hlen =>
    by_cases hx : x = u
    · subst hx
      exact Or.inr ⟨rfl, hlen, by simp [mapSet]⟩
    · exact Or.inl (by simp [mapSet, hx])

/-! ## Success and failure shapes of each command -/

theorem registerUser_ok (s : State) (sd : Nat) (nm loc : String) (t : State)
    (h : registerUser s sd nm loc = Except.ok t) :
    (s.users sd).registered = false ∧
    t = { s with
          users := mapSet s.users sd
            { name := nm, location := loc, trustScore := 50, totalHelps := 0,
              totalReceived := 0, credits := 10, registered := true },
          userAddresses := s.userAddresses ++ [sd] } := by
  unfold registerUser at h
  split at h
  · exact Except.noConfusion h
  · next hreg =>
    refine ⟨by simpa using hreg, ?_⟩
    injection h with h
    exact h.symm

theorem createRequest_ok (s : State) (sd : Nat) (ti d l : String)
    (ht ts : Nat) (t : State)
    (h : createRequest s sd ti d l ht ts = Except.ok t) :
    (ensureUser s sd l).creditCosts ht ≠ 0 ∧
    ((ensureUser s sd l).creditCosts ht : Int) ≤
      ((ensureUser s sd l).users sd).credits ∧
    t = { ensureUser s sd l with
          users := mapSet (ensureUser s sd l).users sd
            { (ensureUser s sd l).users sd with
              credits := ((ensureUser s sd l).users sd).credits -
                ((ensureUser s sd l).creditCosts ht : Int),
              totalReceived :=
                ((ensureUser s sd l).users sd).totalReceived + 1 },
          requestCount := (ensureUser s sd l).requestCount + 1,
          requests := mapSet (ensureUser s sd l).requests
            ((ensureUser s sd l).requestCount + 1)
            { id := (ensureUser s sd l).requestCount + 1, requester := sd,
              title := ti, description := d, location := l, timestamp := ts,
              status := RequestStatus.Open, helper := 0,
              helpType := ht } } := by
  simp only [createRequest] at h
  split at h
  · exact Except.noConfusion h
  · split at h
    · exact Except.noConfusion h
    · next hcost hcred =>
      refine ⟨hcost, by omega, ?_⟩
      injection h with h
      rw [← h]
      simp only [mapSet_self]
      rw [mapSet_override]

theorem createRequest_error (s : State) (sd : Nat) (ti d l : String)
    (ht ts : Nat) (e : Err)
    (h : createRequest s sd ti d l ht ts = Except.error e) :
    e = Err.InvalidHelpType ∨ e = Err.InsufficientCredit := by
  simp only [createRequest] at h
  split at h
  · injection h with h
    exact Or.inl h.symm
  · split at h
    · injection h with h
      exact Or.inr h.symm
    · exact Except.noConfusion h

theorem acceptRequest_ok (s : State) (sd rid : Nat) (t : State)
    (h : acceptRequest s sd rid = Except.ok t) :
    ((ensureUser s sd "").requests rid).status = RequestStatus.Open ∧
    ((ensureUser s sd "").requests rid).requester ≠ sd ∧
    t = { ensureUser s sd "" with
          requests := mapSet (ensureUser s sd "").requests rid
            { (ensureUser s sd "").requests rid with
              helper := sd, status := RequestStatus.Matched },
          users := mapSet (ensureUser s sd "").users sd
            { (ensureUser s sd "").users sd with
              totalHelps := ((ensureUser s sd "").users sd).totalHelps + 1,
              credits := ((ensureUser s sd "").users sd).credits +
                CREDIT_REWARD } } := by
  simp only [acceptRequest] at h
  split at h
  · exact Except.noConfusion h
  · split at h
    · exact Except.noConfusion h
    · next hopen hself =>
      refine ⟨by simpa using hopen, fun hc => hself hc, ?_⟩
      injection h with h
      exact h.symm

theorem completeRequest_ok (s : State) (sd rid : Nat) (t : State)
    (h : completeRequest s sd rid = Except.ok t) :
    (sd = (s.requests rid).requester ∨ sd = (s.requests rid).helper) ∧
    (s.requests rid).status = RequestStatus.Matched ∧
    t = { s with
          requests := mapSet s.requests rid
            { s.requests rid with status := RequestStatus.Completed } } := by
  simp only [completeRequest] at h
  split at h
  · next hauth =>
    split at h
    · exact Except.noConfusion h
    · next hst =>
      refine ⟨hauth, by simpa using hst, ?_⟩
      injection h with h
      exact h.symm
  · exact Except.noConfusion h

theorem submitReview_ok (s : State) (sd rid rvd rat : Nat) (c : String)
    (ts : Nat) (t : State)
    (h : submitReview s sd rid rvd rat c ts = Except.ok t) :
    1 ≤ rat ∧ rat ≤ 5 ∧
    ((sd = (s.requests rid).requester ∧ rvd = (s.requests rid).helper) ∨
     (sd = (s.requests rid).helper ∧ rvd = (s.requests rid).requester)) ∧
    (s.requests rid).status = RequestStatus.Completed ∧
    t = updateTrustScore
          { s with
            requestReviews := mapSet s.requestReviews rid
              (s.requestReviews rid ++
                [{ reviewer := sd, reviewed := rvd, requestId := rid,
                   rating := rat, comment := c, timestamp := ts }]),
            userReviews := mapSet s.userReviews rvd
              (s.userReviews rvd ++
                [{ reviewer := sd, reviewed := rvd, requestId := rid,
                   rating := rat, comment := c, timestamp := ts }]) }
          rvd := by
  simp only [submitReview] at h
  split at h
  · exact Except.noConfusion h
  · next hrat =>
    split at h
    · next hpair =>
      split at h
      · exact Except.noConfusion h
      · next hst =>
        have hrat2 := not_not.mp hrat
        refine ⟨hrat2.1, hrat2.2, hpair, by simpa using hst, ?_⟩
        injection h with h
        exact h.symm
    · exact Except.noConfusion h

theorem exec_register (s : State) (sd : Nat) (nm loc : String) :
    exec s (Command.register sd nm loc) = registerUser s sd nm loc := rfl

theorem exec_create (s : State) (sd : Nat) (ti d l : String) (ht ts : Nat) :
    exec s (Command.create sd ti d l ht ts) =
      createRequest s sd ti d l ht ts := rfl

theorem exec_accept (s : State) (sd rid : Nat) :
    exec s (Command.accept sd rid) = acceptRequest s sd rid := rfl

theorem exec_complete (s : State) (sd rid : Nat) :
    exec s (Command.complete sd rid) = completeRequest s sd rid := rfl

theorem exec_review (s : State) (sd rid rvd rat : Nat) (c : String)
    (ts : Nat) :
    exec s (Command.review sd rid rvd rat c ts) =
      submitReview s sd rid rvd rat c ts := rfl

theorem step_eq_of_ok (s : State) (c : Command) (t : State)
    (h : exec s c = Except.ok t) : step s c = t := by
  simp [step, h]

theorem step_eq_of_error (s : State) (c : Command) (e : Err)
    (h : exec s c = Except.error e) : step s c = s := by
  simp [step, h]

theorem isOk_exists (r : Except Err State) (h : isOk r = true) :
    ∃ t, r = Except.ok t := by
  cases r with
  | ok t => exact ⟨t, rfl⟩
  | error e => exact Bool.noConfusion h

/-! ## Induction over command sequences -/

theorem foldl_inv (Inv : State → Prop)
    (h : ∀ s c, Inv s → Inv (step s c)) :
    ∀ (cmds : List Command) (s : State), Inv s → Inv (cmds.foldl step s) := by
  intro cmds
  induction cmds with
  | nil => intro s hs; exact hs
  | cons c cs ih => intro s hs; exact ih (step s c) (h s c hs)

theorem foldl_inv_nz (Inv : State → Prop)
    (h : ∀ s c, Command.sender c ≠ 0 → Inv s → Inv (step s c)) :
    ∀ (cmds : List Command) (s : State),
      (∀ c ∈ cmds, Command.sender c ≠ 0) → Inv s →
      Inv (cmds.foldl step s) := by
  intro cmds
  induction cmds with
  | nil => intro s _ hs; exact hs
  | cons c cs ih =>
    intro s hz hs
    exact ih (step s c) (fun d hd => hz d (List.mem_cons_of_mem c hd))
      (h s c (hz c (List.mem_cons_self c cs)) hs)

theorem foldl_creditCosts_aux (s : State) (c : Command) :
    (step s c).creditCosts = s.creditCosts := by
  cases hc : exec s c with
  | error e => rw [step_eq_of_error s c e hc]
  | ok t =>
    rw [step_eq_of_ok s c t hc]
    cases c with
    | register sd nm loc =>
      obtain ⟨-, ht⟩ := registerUser_ok s sd nm loc t hc
      rw [ht]
    | create sd ti d l ht2 ts =>
      obtain ⟨-, -, ht⟩ := createRequest_ok s sd ti d l ht2 ts t hc
      rw [ht]
      exact ensureUser_creditCosts s sd l
    | accept sd rid =>
      obtain ⟨-, -, ht⟩ := acceptRequest_ok s sd rid t hc
      rw [ht]
      exact ensureUser_creditCosts s sd ""
    | complete sd rid =>
      obtain ⟨-, -, ht⟩ := completeRequest_ok s sd rid t hc
      rw [ht]
    | review sd rid rvd rat cm ts =>
      obtain ⟨-, -, -, -, ht⟩ := submitReview_ok s sd rid rvd rat cm ts t hc
      rw [ht, updateTrustScore_creditCosts]

theorem run_creditCosts (cmds : List Command) :
    (run cmds).creditCosts = initialState.creditCosts := by
  have h : ∀ (cs : List Command) (s : State),
      (cs.foldl step s).creditCosts = s.creditCosts := by
    intro cs
    induction cs with
    | nil => intro s; rfl
    | cons c cs2 ih =>
      intro s
      rw [List.foldl_cons, ih (step s c), foldl_creditCosts_aux s c]
  exact h cmds initialState

theorem run_demoCmds : run demoCmds = sDone := rfl

/-! ## Claim C1 -/

/-- Claim C1 (refuted by the code, a bug): on the freshly deployed state no
request id was ever assigned, yet `acceptRequest` on id 1 does not fail with
any error, let alone `RequestNotFound`; it succeeds, records the caller as
helper of the phantom request slot, marks it Matched, and pays the caller
the credit reward, so accounts and requests do change. -/
theorem C1_phantom_accept :
    initialState.requestCount = 0 ∧
    isOk (acceptRequest initialState 2 1) = true ∧
    ((step initialState (Command.accept 2 1)).requests 1).helper = 2 ∧
    ((step initialState (Command.accept 2 1)).requests 1).status =
      RequestStatus.Matched ∧
    ((step initialState (Command.accept 2 1)).users 2).credits = 11 :=
  ⟨rfl, rfl, rfl, rfl, rfl⟩

/-! ## Claim C4 -/

/-- Claim C4: whenever `createRequest` fails, the transaction reverts, so the
whole shared state (balances, request counter, stored requests, account
store including any auto-registration) is exactly the pre-call state; and
the only failure kinds are `InvalidHelpType` and `InsufficientCredit`. -/
theorem C4_createRequest_atomic (s : State) (sd : Nat) (ti d l : String)
    (ht ts : Nat) (e : Err)
    (h : createRequest s sd ti d l ht ts = Except.error e) :
    step s (Command.create sd ti d l ht ts) = s ∧
    (e = Err.InvalidHelpType ∨ e = Err.InsufficientCredit) :=
  ⟨step_eq_of_error s (Command.create sd ti d l ht ts) e h,
   createRequest_error s sd ti d l ht ts e h⟩

/-- Witness for C4 at a concrete failing input (help type 9 is invalid). -/
theorem C4_createRequest_atomic_witness :
    createRequest initialState 1 "a" "b" "c" 9 0 =
      Except.error Err.InvalidHelpType ∧
    step initialState (Command.create 1 "a" "b" "c" 9 0) = initialState :=
  ⟨rfl, (C4_createRequest_atomic initialState 1 "a" "b" "c" 9 0
      Err.InvalidHelpType rfl).1⟩

/-! ## Claim C5 -/

/-- Claim C5 is refuted at a concrete input: on the fresh state request id 1
is unknown, yet `completeRequest` fails with `NotAuthorized`, not with
`RequestNotFound` as the claim states (the code has no existence check; the
caller is compared against the zero requester and helper of the default
slot). -/
theorem C5_counterexample :
    initialState.requestCount = 0 ∧
    completeRequest initialState 2 1 = Except.error Err.NotAuthorized ∧
    completeRequest initialState 2 1 ≠ Except.error Err.RequestNotFound := by
  refine ⟨rfl, rfl, fun hc => ?_⟩
  have h1 : completeRequest initialState 2 1 =
      Except.error Err.NotAuthorized := rfl
  exact Err.noConfusion (Except.error.inj (h1.symm.trans hc))

/-- Claim C5 (amended): `completeRequest` fails with `NotAuthorized` whenever
the caller is neither the stored requester nor the stored helper (unknown
ids store the zero identity for both), fails with `RequestNotMatched` when
the caller is authorized but the stored status is not Matched, and succeeds
exactly when the caller is the stored requester or helper and the stored
status is Matched. -/
theorem C5_complete_gating (s : State) (sd rid : Nat) :
    (¬(sd = (s.requests rid).requester ∨ sd = (s.requests rid).helper) →
      completeRequest s sd rid = Except.error Err.NotAuthorized) ∧
    ((sd = (s.requests rid).requester ∨ sd = (s.requests rid).helper) →
      (s.requests rid).status ≠ RequestStatus.Matched →
      completeRequest s sd rid = Except.error Err.RequestNotMatched) ∧
    (isOk (completeRequest s sd rid) = true ↔
      ((sd = (s.requests rid).requester ∨ sd = (s.requests rid).helper) ∧
       (s.requests rid).status = RequestStatus.Matched)) := by
  refine ⟨?_, ?_, ?_, ?_⟩
  · intro hna
    simp only [completeRequest]
    rw [if_neg hna]
  · intro hauth hst
    simp only [completeRequest]
    rw [if_pos hauth, if_pos hst]
  · intro hok
    obtain ⟨t, ht⟩ := isOk_exists _ hok
    have hc := completeRequest_ok s sd rid t ht
    exact ⟨hc.1, hc.2.1⟩
  · rintro ⟨hauth, hst⟩
    simp only [completeRequest]
    rw [if_pos hauth, if_neg (not_not_intro hst)]
    rfl

/-- Witness for C5 at concrete inputs: in the matched demo state the
requester may complete; an unauthorized caller gets `NotAuthorized`; a
second completion on the completed request gets `RequestNotMatched`. -/
theorem C5_complete_gating_witness :
    isOk (completeRequest sMatched 1 1) = true ∧
    completeRequest sMatched 7 1 = Except.error Err.NotAuthorized ∧
    completeRequest sDone 1 1 = Except.error Err.RequestNotMatched :=
  ⟨(C5_complete_gating sMatched 1 1).2.2.mpr ⟨Or.inl rfl, rfl⟩,
   (C5_complete_gating sMatched 7 1).1 (by decide),
   (C5_complete_gating sDone 1 1).2.1 (Or.inl rfl) (by decide)⟩

/-! ## Claim C6 -/

/-- Claim C6 is refuted at a concrete input: in the matched demo state the
requester of request 1 is identity 1, yet when identity 1 calls
`acceptRequest` on it the failure is `RequestNotOpen`, not
`SelfHelpForbidden` — the status guard runs before the self-help guard, so
the claim does not hold regardless of status. -/
theorem C6_counterexample :
    (sMatched.requests 1).requester = 1 ∧
    (sMatched.requests 1).status = RequestStatus.Matched ∧
    acceptRequest sMatched 1 1 = Except.error Err.RequestNotOpen ∧
    acceptRequest sMatched 1 1 ≠ Except.error Err.SelfHelpForbidden := by
  refine ⟨rfl, rfl, rfl, fun hc => ?_⟩
  have h1 : acceptRequest sMatched 1 1 =
      Except.error Err.RequestNotOpen := rfl
  exact Err.noConfusion (Except.error.inj (h1.symm.trans hc))

/-- Claim C6 (amended): when the stored status is Open, `acceptRequest` by
the stored requester fails with `SelfHelpForbidden`; when the stored status
is not Open it fails with `RequestNotOpen` whoever calls, the requester
included. -/
theorem C6_self_help (s : State) (sd rid : Nat) :
    ((s.requests rid).status = RequestStatus.Open →
      (s.requests rid).requester = sd →
      acceptRequest s sd rid = Except.error Err.SelfHelpForbidden) ∧
    ((s.requests rid).status ≠ RequestStatus.Open →
      acceptRequest s sd rid = Except.error Err.RequestNotOpen) := by
  constructor
  · intro hst hreq
    simp only [acceptRequest, ensureUser_requests]
    rw [if_neg (not_not_intro hst), if_pos hreq]
  · intro hst
    simp only [acceptRequest, ensureUser_requests]
    rw [if_pos hst]

/-- Witness for C6 at concrete inputs: self-accept of the open demo request
is forbidden; accepting the matched demo request is not open. -/
theorem C6_self_help_witness :
    acceptRequest sCreated 1 1 = Except.error Err.SelfHelpForbidden ∧
    acceptRequest sMatched 7 1 = Except.error Err.RequestNotOpen :=
  ⟨(C6_self_help sCreated 1 1).1 rfl rfl,
   (C6_self_help sMatched 7 1).2 (by decide)⟩

/-! ## Claim C8 -/

/-- Claim C8 is refuted at a concrete input: the cost query on the invalid
code 3 does not fail; it is a total view returning the mapping default 0
(the valid codes return 2, 5, 3 as claimed). -/
theorem C8_counterexample :
    getCreditCost initialState 3 = 0 ∧
    getCreditCost initialState 100 = 0 ∧
    getCreditCost initialState 0 = 2 ∧
    getCreditCost initialState 1 = 5 ∧
    getCreditCost initialState 2 = 3 :=
  ⟨rfl, rfl, rfl, rfl, rfl⟩

/-- Claim C8 (amended): after any run, the cost query returns the fixed
costs 2, 5, 3 for codes 0, 1, 2 and returns 0 (never an error) for every
other code; it is `createRequest` that rejects any zero-cost code with
`InvalidHelpType`. -/
theorem C8_cost_schedule (cmds : List Command) (t : Nat) (h : 3 ≤ t) :
    getCreditCost (run cmds) 0 = 2 ∧ getCreditCost (run cmds) 1 = 5 ∧
    getCreditCost (run cmds) 2 = 3 ∧ getCreditCost (run cmds) t = 0 ∧
    (∀ (sd : Nat) (ti d l : String) (ts : Nat),
      createRequest (run cmds) sd ti d l t ts =
        Except.error Err.InvalidHelpType) := by
  have hcc : (run cmds).creditCosts = initialState.creditCosts :=
    run_creditCosts cmds
  have h0 : t ≠ 0 := by omega
  have h1 : t ≠ 1 := by omega
  have h2 : t ≠ 2 := by omega
  have ht0 : getCreditCost (run cmds) t = 0 := by
    simp [getCreditCost, hcc, initialState, mapSet, h0, h1, h2]
  refine ⟨by simp [getCreditCost, hcc]; rfl, by simp [getCreditCost, hcc]; rfl,
    by simp [getCreditCost, hcc]; rfl, ht0, ?_⟩
  intro sd ti d l ts
  simp only [createRequest, ensureUser_creditCosts]
  rw [if_pos]
  exact ht0

/-- Witness for C8 at the concrete invalid code 7 on the fresh run. -/
theorem C8_cost_schedule_witness :
    getCreditCost (run []) 7 = 0 ∧
    createRequest (run []) 1 "a" "b" "c" 7 0 =
      Except.error Err.InvalidHelpType := by
  have h := C8_cost_schedule [] 7 (by decide)
  exact ⟨h.2.2.2.1, h.2.2.2.2 1 "a" "b" "c" 0⟩

/-! ## Claim C3 -/

theorem ensureUser_credits_nonneg (s : State) (sd : Nat) (l : String)
    (x : Nat) (hs : ∀ y, 0 ≤ (s.users y).credits) :
    0 ≤ ((ensureUser s sd l).users x).credits := by
  rcases ensureUser_users_cases s sd l x with h | ⟨-, -, h⟩
  · rw [h]; exact hs x
  · rw [h]; simp

theorem step_nonneg (s : State) (c : Command)
    (hs : ∀ y, 0 ≤ (s.users y).credits) :
    ∀ y, 0 ≤ ((step s c).users y).credits := by
  cases hc : exec s c with
  | error e => rw [step_eq_of_error s c e hc]; exact hs
  | ok t =>
    rw [step_eq_of_ok s c t hc]
    cases c with
    | register sd nm loc =>
      obtain ⟨-, ht⟩ := registerUser_ok s sd nm loc t hc
      intro y
      rw [ht]
      by_cases hy : y = sd
      · subst hy; simp only [mapSet_self]; decide
      · simp only [mapSet_ne _ _ _ _ hy]; exact hs y
    | create sd ti d l ht2 ts =>
      obtain ⟨-, hcred, ht⟩ := createRequest_ok s sd ti d l ht2 ts t hc
      intro y
      rw [ht]
      by_cases hy : y = sd
      · subst hy; simp only [mapSet_self]; omega
      · simp only [mapSet_ne _ _ _ _ hy]
        exact ensureUser_credits_nonneg s sd l y hs
    | accept sd rid =>
      obtain ⟨-, -, ht⟩ := acceptRequest_ok s sd rid t hc
      intro y
      rw [ht]
      by_cases hy : y = sd
      · subst hy
        simp only [mapSet_self]
        have hnn := ensureUser_credits_nonneg s y "" y hs
        simp only [CREDIT_REWARD]
        omega
      · simp only [mapSet_ne _ _ _ _ hy]
        exact ensureUser_credits_nonneg s sd "" y hs
    | complete sd rid =>
      obtain ⟨-, -, ht⟩ := completeRequest_ok s sd rid t hc
      intro y
      rw [ht]
      exact hs y
    | review sd rid rvd rat cm ts =>
      obtain ⟨-, -, -, -, ht⟩ := submitReview_ok s sd rid rvd rat cm ts t hc
      intro y
      rw [ht]
      rcases updateTrustScore_users_cases
          { s with
            requestReviews := mapSet s.requestReviews rid
              (s.requestReviews rid ++
                [{ reviewer := sd, reviewed := rvd, requestId := rid,
                   rating := rat, comment := cm, timestamp := ts }]),
            userReviews := mapSet s.userReviews rvd
              (s.userReviews rvd ++
                [{ reviewer := sd, reviewed := rvd, requestId := rid,
                   rating := rat, comment := cm, timestamp := ts }]) }
          rvd y with h | ⟨hy, -, h⟩
      · rw [h]; exact hs y
      · subst hy; rw [h]; exact hs y

/-- Claim C3: for every sequence of commands from the initial state and
every identity, the credit balance of the account is non-negative after
every command (the debit in `createRequest` is guarded by the balance
check, and all other balance changes are additions). -/
theorem C3_balance_nonneg (cmds : List Command) (x : Nat) :
    0 ≤ ((run cmds).users x).credits :=
  foldl_inv (fun s => ∀ y, 0 ≤ (s.users y).credits) step_nonneg cmds
    initialState (fun _ => le_refl 0) x

/-! ## Claim C2 -/

theorem acceptRequest_notOpen (s : State) (sd rid : Nat)
    (hst : (s.requests rid).status ≠ RequestStatus.Open) :
    acceptRequest s sd rid = Except.error Err.RequestNotOpen := by
  simp only [acceptRequest, ensureUser_requests]
  rw [if_pos hst]

theorem step_stable (s : State) (c : Command) (rid : Nat)
    (hid : rid ≤ s.requestCount)
    (hst : (s.requests rid).status ≠ RequestStatus.Open) :
    rid ≤ (step s c).requestCount ∧
    ((step s c).requests rid).helper = (s.requests rid).helper ∧
    ((step s c).requests rid).id = (s.requests rid).id ∧
    ((step s c).requests rid).requester = (s.requests rid).requester ∧
    ((step s c).requests rid).status ≠ RequestStatus.Open := by
  cases hc : exec s c with
  | error e =>
    rw [step_eq_of_error s c e hc]
    exact ⟨hid, rfl, rfl, rfl, hst⟩
  | ok t =>
    rw [step_eq_of_ok s c t hc]
    cases c with
    | register sd nm loc =>
      obtain ⟨-, ht⟩ := registerUser_ok s sd nm loc t hc
      rw [ht]
      exact ⟨hid, rfl, rfl, rfl, hst⟩
    | create sd ti d l ht2 ts =>
      obtain ⟨-, -, ht⟩ := createRequest_ok s sd ti d l ht2 ts t hc
      rw [ht]
      have hne : rid ≠ s.requestCount + 1 := by omega
      simp only [ensureUser_requestCount, ensureUser_requests,
        mapSet_ne _ _ _ _ hne]
      exact ⟨by omega, by simp, by simp, by simp, hst⟩
    | accept sd rid2 =>
      obtain ⟨hopen, -, ht⟩ := acceptRequest_ok s sd rid2 t hc
      rw [ensureUser_requests] at hopen
      have hne : rid ≠ rid2 := by
        intro he
        rw [he] at hst
        exact hst hopen
      rw [ht]
      simp only [ensureUser_requestCount, ensureUser_requests,
        mapSet_ne _ _ _ _ hne]
      exact ⟨hid, by simp, by simp, by simp, hst⟩
    | complete sd rid2 =>
      obtain ⟨-, -, ht⟩ := completeRequest_ok s sd rid2 t hc
      rw [ht]
      by_cases he : rid = rid2
      · subst he
        simp only [mapSet_self]
        exact ⟨hid, by simp, by simp, by simp, by simp⟩
      · simp only [mapSet_ne _ _ _ _ he]
        exact ⟨hid, by simp, by simp, by simp, hst⟩
    | review sd rid2 rvd rat cm ts =>
      obtain ⟨-, -, -, -, ht⟩ := submitReview_ok s sd rid2 rvd rat cm ts t hc
      rw [ht, updateTrustScore_requests, updateTrustScore_requestCount]
      exact ⟨hid, rfl, rfl, rfl, hst⟩

/-- Claim C2 (amended): for a request slot already allocated by
createRequest (id within the current request counter), once acceptRequest
succeeds on it, after every later command sequence the helper is still the
accepting identity and the id field is unchanged, and every later
acceptRequest on the same id fails with RequestNotOpen — so such a request
records at most one helper, ever. The restriction to allocated ids is
forced: on a phantom id beyond the counter, a later createRequest
reallocates the slot and a second accept can succeed (see the
counterexample). -/
theorem C2_single_match (s : State) (sd rid : Nat)
    (hid : rid ≤ s.requestCount)
    (hok : isOk (acceptRequest s sd rid) = true)
    (cmds : List Command) :
    ((cmds.foldl step (step s (Command.accept sd rid))).requests rid).helper
        = sd ∧
    ((cmds.foldl step (step s (Command.accept sd rid))).requests rid).id
        = (s.requests rid).id ∧
    ∀ sd2, acceptRequest (cmds.foldl step (step s (Command.accept sd rid)))
        sd2 rid = Except.error Err.RequestNotOpen := by
  obtain ⟨t, ht⟩ := isOk_exists _ hok
  have hstep : step s (Command.accept sd rid) = t :=
    step_eq_of_ok s (Command.accept sd rid) t ht
  obtain ⟨-, -, htEq⟩ := acceptRequest_ok s sd rid t ht
  have hbase : rid ≤ t.requestCount ∧ (t.requests rid).helper = sd ∧
      (t.requests rid).id = (s.requests rid).id ∧
      (t.requests rid).status ≠ RequestStatus.Open := by
    rw [htEq]
    simp only [ensureUser_requestCount, ensureUser_requests, mapSet_self]
    exact ⟨hid, by simp, by simp, by simp⟩
  have hmain := foldl_inv
    (fun u => rid ≤ u.requestCount ∧ (u.requests rid).helper = sd ∧
      (u.requests rid).id = (s.requests rid).id ∧
      (u.requests rid).status ≠ RequestStatus.Open)
    (fun u c hu => by
      obtain ⟨h1, h2, h3, h4, h5⟩ := step_stable u c rid hu.1 hu.2.2.2
      exact ⟨h1, h2.trans hu.2.1, h3.trans hu.2.2.1, h5⟩)
    cmds t hbase
  rw [hstep]
  exact ⟨hmain.2.1, hmain.2.2.1,
    fun sd2 => acceptRequest_notOpen _ sd2 rid hmain.2.2.2⟩

/-- Claim C2 is refuted as stated on a phantom id: on the fresh state,
acceptRequest on the never-assigned id 1 succeeds with helper 2; a later
createRequest reallocates slot 1, resetting the helper to 0 and the status
to Open; a second acceptRequest on the same id then succeeds with the
different helper 4 — so after one successful accept a later accept did not
fail with RequestNotOpen, the helper field changed, and two different
helpers were recorded over the history. -/
theorem C2_counterexample :
    isOk (acceptRequest initialState 2 1) = true ∧
    ((step initialState (Command.accept 2 1)).requests 1).helper = 2 ∧
    ((run [Command.accept 2 1,
           Command.create 3 "t" "d" "l" 0 0]).requests 1).helper = 0 ∧
    isOk (acceptRequest
      (run [Command.accept 2 1, Command.create 3 "t" "d" "l" 0 0])
      4 1) = true ∧
    ((run [Command.accept 2 1, Command.create 3 "t" "d" "l" 0 0,
           Command.accept 4 1]).requests 1).helper = 4 :=
  ⟨rfl, rfl, rfl, rfl, rfl⟩

/-- Witness for C2 at concrete inputs: accepting the allocated open demo
request 1 as identity 2, then completing it, leaves helper 2 and id 1, and
a further accept fails with RequestNotOpen. -/
theorem C2_single_match_witness :
    ((([Command.complete 1 1]).foldl step
        (step sCreated (Command.accept 2 1))).requests 1).helper = 2 ∧
    acceptRequest (([Command.complete 1 1]).foldl step
        (step sCreated (Command.accept 2 1))) 7 1 =
      Except.error Err.RequestNotOpen := by
  have h := C2_single_match sCreated 2 1 (by decide) (by decide)
    [Command.complete 1 1]
  exact ⟨h.1, h.2.2 7⟩

/-! ## Claim C9 -/

/-- Claim C9: whenever completeRequest succeeds, the only state change is
the status of the referenced request becoming Completed: the account store
(balances, trust scores, counters), the request counter, every other field
of that request, every other request, both review stores, the address list
and the cost schedule are unchanged. -/
theorem C9_complete_frame (s : State) (sd rid : Nat)
    (hok : isOk (completeRequest s sd rid) = true) :
    ((step s (Command.complete sd rid)).requests rid =
      { s.requests rid with status := RequestStatus.Completed }) ∧
    (∀ k, k ≠ rid →
      (step s (Command.complete sd rid)).requests k = s.requests k) ∧
    (step s (Command.complete sd rid)).users = s.users ∧
    (step s (Command.complete sd rid)).requestCount = s.requestCount ∧
    (step s (Command.complete sd rid)).requestReviews = s.requestReviews ∧
    (step s (Command.complete sd rid)).userReviews = s.userReviews ∧
    (step s (Command.complete sd rid)).userAddresses = s.userAddresses ∧
    (step s (Command.complete sd rid)).creditCosts = s.creditCosts := by
  obtain ⟨t, ht⟩ := isOk_exists _ hok
  have hstep : step s (Command.complete sd rid) = t :=
    step_eq_of_ok s (Command.complete sd rid) t ht
  obtain ⟨-, -, htEq⟩ := completeRequest_ok s sd rid t ht
  rw [hstep, htEq]
  refine ⟨mapSet_self _ _ _, fun k hk => mapSet_ne _ _ _ _ hk,
    rfl, rfl, rfl, rfl, rfl, rfl⟩

/-- Witness for C9 at the matched demo state: the requester completes
request 1; only its status changes. -/
theorem C9_complete_frame_witness :
    ((step sMatched (Command.complete 1 1)).requests 1 =
      { sMatched.requests 1 with status := RequestStatus.Completed }) ∧
    (step sMatched (Command.complete 1 1)).requests 2 =
      sMatched.requests 2 ∧
    (step sMatched (Command.complete 1 1)).users = sMatched.users := by
  have h := C9_complete_frame sMatched 1 1 (by decide)
  exact ⟨h.1, h.2.1 2 (by decide), h.2.2.1⟩

/-! ## Claim C10 -/

theorem step_distinct (s : State) (c : Command)
    (hs : ∀ k, ((s.requests k).status = RequestStatus.Matched ∨
        (s.requests k).status = RequestStatus.Completed) →
      (s.requests k).requester ≠ (s.requests k).helper) :
    ∀ k, (((step s c).requests k).status = RequestStatus.Matched ∨
        ((step s c).requests k).status = RequestStatus.Completed) →
      ((step s c).requests k).requester ≠ ((step s c).requests k).helper := by
  cases hc : exec s c with
  | error e => rw [step_eq_of_error s c e hc]; exact hs
  | ok t =>
    rw [step_eq_of_ok s c t hc]
    cases c with
    | register sd nm loc =>
      obtain ⟨-, ht⟩ := registerUser_ok s sd nm loc t hc
      rw [ht]
      exact hs
    | create sd ti d l ht2 ts =>
      obtain ⟨-, -, ht⟩ := createRequest_ok s sd ti d l ht2 ts t hc
      rw [ht]
      intro k hk
      by_cases he : k = (ensureUser s sd l).requestCount + 1
      · subst he
        simp only [mapSet_self] at hk
        simp at hk
      · simp only [mapSet_ne _ _ _ _ he, ensureUser_requests] at hk ⊢
        exact hs k hk
    | accept sd rid =>
      obtain ⟨-, hself, ht⟩ := acceptRequest_ok s sd rid t hc
      rw [ht]
      intro k hk
      by_cases he : k = rid
      · subst he
        simp only [mapSet_self]
        exact hself
      · simp only [mapSet_ne _ _ _ _ he, ensureUser_requests] at hk ⊢
        exact hs k hk
    | complete sd rid =>
      obtain ⟨-, hmat, ht⟩ := completeRequest_ok s sd rid t hc
      rw [ht]
      intro k hk
      by_cases he : k = rid
      · subst he
        simp only [mapSet_self]
        exact hs k (Or.inl hmat)
      · simp only [mapSet_ne _ _ _ _ he] at hk ⊢
        exact hs k hk
    | review sd rid rvd rat cm ts =>
      obtain ⟨-, -, -, -, ht⟩ := submitReview_ok s sd rid rvd rat cm ts t hc
      rw [ht, updateTrustScore_requests]
      exact hs

theorem run_distinct (cmds : List Command) :
    ∀ k, (((run cmds).requests k).status = RequestStatus.Matched ∨
        ((run cmds).requests k).status = RequestStatus.Completed) →
      ((run cmds).requests k).requester ≠ ((run cmds).requests k).helper := by
  refine foldl_inv
    (fun s => ∀ k, ((s.requests k).status = RequestStatus.Matched ∨
        (s.requests k).status = RequestStatus.Completed) →
      (s.requests k).requester ≠ (s.requests k).helper)
    step_distinct cmds initialState ?_
  intro k hk
  rcases hk with h | h <;> exact RequestStatus.noConfusion h

/-- Claim C10: whenever submitReview succeeds on a reachable state, the only
account field it changes is the trust score of the reviewed identity — the
reviewer is always a different identity (a completed request never has
requester = helper) and the reviewer account, every other account, all
requests, the counter, the address list and the cost schedule are
unchanged; the new review is appended at the end of both the per-request
and the per-reviewed-identity collections, all other review lists
unchanged. -/
theorem C10_review_frame (cmds : List Command) (sd rid rvd rat : Nat)
    (cm : String) (ts : Nat)
    (hok : isOk (submitReview (run cmds) sd rid rvd rat cm ts) = true) :
    sd ≠ rvd ∧
    (step (run cmds) (Command.review sd rid rvd rat cm ts)).users sd =
      (run cmds).users sd ∧
    (∀ x, x ≠ rvd →
      (step (run cmds) (Command.review sd rid rvd rat cm ts)).users x =
        (run cmds).users x) ∧
    (step (run cmds) (Command.review sd rid rvd rat cm ts)).users rvd =
      { (run cmds).users rvd with
        trustScore :=
          ((step (run cmds)
            (Command.review sd rid rvd rat cm ts)).users rvd).trustScore } ∧
    (step (run cmds) (Command.review sd rid rvd rat cm ts)).requests =
      (run cmds).requests ∧
    (step (run cmds) (Command.review sd rid rvd rat cm ts)).requestCount =
      (run cmds).requestCount ∧
    (step (run cmds) (Command.review sd rid rvd rat cm ts)).userAddresses =
      (run cmds).userAddresses ∧
    (step (run cmds) (Command.review sd rid rvd rat cm ts)).creditCosts =
      (run cmds).creditCosts ∧
    (step (run cmds) (Command.review sd rid rvd rat cm ts)).requestReviews
        rid = (run cmds).requestReviews rid ++
      [{ reviewer := sd, reviewed := rvd, requestId := rid, rating := rat,
         comment := cm, timestamp := ts }] ∧
    (∀ k, k ≠ rid →
      (step (run cmds) (Command.review sd rid rvd rat cm ts)).requestReviews
          k = (run cmds).requestReviews k) ∧
    (step (run cmds) (Command.review sd rid rvd rat cm ts)).userReviews rvd =
      (run cmds).userReviews rvd ++
      [{ reviewer := sd, reviewed := rvd, requestId := rid, rating := rat,
         comment := cm, timestamp := ts }] ∧
    (∀ x, x ≠ rvd →
      (step (run cmds) (Command.review sd rid rvd rat cm ts)).userReviews x =
        (run cmds).userReviews x) := by
  obtain ⟨t, ht⟩ := isOk_exists _ hok
  have hstep : step (run cmds) (Command.review sd rid rvd rat cm ts) = t :=
    step_eq_of_ok _ _ t ht
  obtain ⟨-, -, hpair, hcompleted, htEq⟩ :=
    submitReview_ok (run cmds) sd rid rvd rat cm ts t ht
  have hdist := run_distinct cmds rid (Or.inr hcompleted)
  have hsd : sd ≠ rvd := by
    rcases hpair with ⟨h1, h2⟩ | ⟨h1, h2⟩
    · rw [h1, h2]; exact hdist
    · rw [h1, h2]; exact fun he => hdist he.symm
  rw [hstep, htEq]
  refine ⟨hsd, ?_, ?_, ?_, ?_, ?_, ?_, ?_, ?_, ?_, ?_, ?_⟩
  · rw [updateTrustScore_users_ne _ _ _ hsd]
  · intro x hx
    rw [updateTrustScore_users_ne _ _ _ hx]
  · rcases updateTrustScore_users_cases
        { run cmds with
          requestReviews := mapSet (run cmds).requestReviews rid
            ((run cmds).requestReviews rid ++
              [{ reviewer := sd, reviewed := rvd, requestId := rid,
                 rating := rat, comment := cm, timestamp := ts }]),
          userReviews := mapSet (run cmds).userReviews rvd
            ((run cmds).userReviews rvd ++
              [{ reviewer := sd, reviewed := rvd, requestId := rid,
                 rating := rat, comment := cm, timestamp := ts }]) }
        rvd rvd with h | ⟨-, -, h⟩ <;> rw [h]
  · rw [updateTrustScore_requests]
  · rw [updateTrustScore_requestCount]
  · rw [updateTrustScore_userAddresses]
  · rw [updateTrustScore_creditCosts]
  · rw [updateTrustScore_requestReviews]
    exact mapSet_self _ _ _
  · intro k hk
    rw [updateTrustScore_requestReviews]
    exact mapSet_ne _ _ _ _ hk
  · rw [updateTrustScore_userReviews]
    exact mapSet_self _ _ _
  · intro x hx
    rw [updateTrustScore_userReviews]
    exact mapSet_ne _ _ _ _ hx

/-- Witness for C10: after the demo run, the helper submits a five star
review of the requester; the reviewer account is unchanged and the review
is appended to both collections. -/
theorem C10_review_frame_witness :
    (1 : Nat) ≠ 2 ∧
    (step (run demoCmds) (Command.review 1 1 2 5 "great" 0)).users 1 =
      (run demoCmds).users 1 ∧
    (step (run demoCmds) (Command.review 1 1 2 5 "great" 0)).userReviews 2 =
      (run demoCmds).userReviews 2 ++
      [{ reviewer := 1, reviewed := 2, requestId := 1, rating := 5,
         comment := "great", timestamp := 0 }] := by
  have h := C10_review_frame demoCmds 1 1 2 5 "great" 0 (by decide)
  exact ⟨h.1, h.2.1, h.2.2.2.2.2.2.2.2.2.2.1⟩

/-! ## Claim C7 -/

theorem sumRatings_go (l : List Review) :
    ∀ n : Nat, l.foldl (fun acc r => acc + r.rating) n = n + sumRatings l := by
  induction l with
  | nil => intro n; simp [sumRatings]
  | cons r tl ih =>
    intro n
    simp only [List.foldl_cons, sumRatings] at *
    rw [ih (n + r.rating), ih (0 + r.rating)]
    omega

theorem sumRatings_cons (r : Review) (l : List Review) :
    sumRatings (r :: l) = r.rating + sumRatings l := by
  have h := sumRatings_go l (0 + r.rating)
  have h0 : sumRatings l = l.foldl (fun acc q => acc + q.rating) 0 := rfl
  simp only [sumRatings, List.foldl_cons]
  rw [h]
  omega

theorem sumRatings_bounds (l : List Review)
    (hr : ∀ r ∈ l, 1 ≤ r.rating ∧ r.rating ≤ 5) :
    l.length ≤ sumRatings l ∧ sumRatings l ≤ 5 * l.length := by
  induction l with
  | nil => simp [sumRatings]
  | cons r tl ih =>
    have h1 := hr r (List.mem_cons_self r tl)
    have h2 := ih (fun q hq => hr q (List.mem_cons_of_mem r hq))
    rw [sumRatings_cons]
    simp only [List.length_cons]
    omega

theorem avg_bounds (l : List Review) (hne : l ≠ [])
    (hr : ∀ r ∈ l, 1 ≤ r.rating ∧ r.rating ≤ 5) :
    20 ≤ sumRatings l * 20 / l.length ∧
    sumRatings l * 20 / l.length ≤ 100 := by
  have hlen : 0 < l.length := List.length_pos.mpr hne
  obtain ⟨hlo, hhi⟩ := sumRatings_bounds l hr
  constructor
  · rw [Nat.le_div_iff_mul_le hlen]
    calc 20 * l.length = l.length * 20 := Nat.mul_comm _ _
    _ ≤ sumRatings l * 20 := Nat.mul_le_mul_right _ hlo
  · calc sumRatings l * 20 / l.length ≤ 5 * l.length * 20 / l.length :=
        Nat.div_le_div_right (Nat.mul_le_mul_right _ hhi)
    _ = 100 * l.length / l.length := by ring_nf
    _ = 100 := Nat.mul_div_cancel _ hlen

theorem updateTrustScore_users_self_nonempty (s : State) (u : Nat)
    (hne : (s.userReviews u).length ≠ 0) :
    (updateTrustScore s u).users u =
      { s.users u with
        trustScore := sumRatings (s.userReviews u) * 20 /
          (s.userReviews u).length } := by
  simp only [updateTrustScore]
  rw [if_neg hne]
  simp only [mapSet_self]

theorem trust_newUser (s : State) (sd : Nat) (nm l : String) (hsd : sd ≠ 0)
    (hreg : (s.users sd).registered = false) (h : TrustInv s) :
    TrustInv { s with
      users := mapSet s.users sd
        { name := nm, location := l, trustScore := 50, totalHelps := 0,
          totalReceived := 0, credits := 10, registered := true },
      userAddresses := s.userAddresses ++ [sd] } := by
  obtain ⟨hA, hB, hC, hD, hE⟩ := h
  refine ⟨?_, ?_, fun x r hr => hC x r hr, ?_, ?_⟩
  · intro x hx
    by_cases he : x = sd
    · subst he
      simp only [mapSet_self]
      have hrev : s.userReviews x = [] := hB x hsd hreg
      simp [trustExpected, hrev]
    · simp only [mapSet_ne _ _ _ _ he] at hx ⊢
      exact hA x hx
  · intro x hx0 hxreg
    by_cases he : x = sd
    · subst he
      simp only [mapSet_self] at hxreg
      exact Bool.noConfusion hxreg
    · simp only [mapSet_ne _ _ _ _ he] at hxreg
      exact hB x hx0 hxreg
  · intro k hk
    obtain ⟨h1, h2⟩ := hD k hk
    refine ⟨h1, ?_⟩
    by_cases he : (s.requests k).helper = sd
    · rw [he]
      simp only [mapSet_self]
    · simp only [mapSet_ne _ _ _ _ he]
      exact h2
  · intro k hk
    have h2 := hE k hk
    by_cases he : (s.requests k).requester = sd
    · rw [he]
      simp only [mapSet_self]
    · simp only [mapSet_ne _ _ _ _ he]
      exact h2

theorem ensureUser_trust (s : State) (sd : Nat) (l : String) (hsd : sd ≠ 0)
    (h : TrustInv s) : TrustInv (ensureUser s sd l) := by
  unfold ensureUser
  split
  · exact h
  · next hreg => exact trust_newUser s sd "" l hsd (by simpa using hreg) h

theorem trust_review (s S : State) (rvd : Nat) (r : Review)
    (hr1 : 1 ≤ r.rating) (hr5 : r.rating ≤ 5)
    (hSusers : S.users = s.users)
    (hSreq : S.requests = s.requests)
    (hSrevs : S.userReviews =
      mapSet s.userReviews rvd (s.userReviews rvd ++ [r]))
    (hrvd : rvd = 0 ∨ (rvd ≠ 0 ∧ (s.users rvd).registered = true))
    (h : TrustInv s) :
    TrustInv (updateTrustScore S rvd) := by
  obtain ⟨hA, hB, hC, hD, hE⟩ := h
  have hSrev : S.userReviews rvd = s.userReviews rvd ++ [r] := by
    rw [hSrevs]
    exact mapSet_self _ _ _
  have hSrev2 : ∀ x, x ≠ rvd → S.userReviews x = s.userReviews x := by
    intro x hx
    rw [hSrevs]
    exact mapSet_ne _ _ _ _ hx
  have hlen : (S.userReviews rvd).length ≠ 0 := by
    rw [hSrev]
    simp
  have husers : (updateTrustScore S rvd).users rvd =
      { S.users rvd with
        trustScore := sumRatings (S.userReviews rvd) * 20 /
          (S.userReviews rvd).length } :=
    updateTrustScore_users_self_nonempty S rvd hlen
  refine ⟨?_, ?_, ?_, ?_, ?_⟩
  · intro x hx
    by_cases he : x = rvd
    · subst he
      rw [husers]
      simp only [trustExpected, updateTrustScore_userReviews, hSrev,
        hSusers, List.length_append]
      simp
    · have hux : (updateTrustScore S rvd).users x = s.users x := by
        rw [updateTrustScore_users_ne S rvd x he, hSusers]
      have hrx : (updateTrustScore S rvd).userReviews x =
          s.userReviews x := by
        rw [updateTrustScore_userReviews]
        exact hSrev2 x he
      rw [hux] at hx ⊢
      rw [hA x hx]
      simp only [trustExpected, hrx]
  · intro x hx0 hxreg
    by_cases he : x = rvd
    · subst he
      rcases hrvd with h0 | ⟨-, hregtrue⟩
      · exact absurd h0 hx0
      · simp only [husers, hSusers] at hxreg
        rw [hregtrue] at hxreg
        exact Bool.noConfusion hxreg
    · have hux : (updateTrustScore S rvd).users x = s.users x := by
        rw [updateTrustScore_users_ne S rvd x he, hSusers]
      have hrx : (updateTrustScore S rvd).userReviews x =
          s.userReviews x := by
        rw [updateTrustScore_userReviews]
        exact hSrev2 x he
      rw [hux] at hxreg
      rw [hrx]
      exact hB x hx0 hxreg
  · intro x q hq
    by_cases he : x = rvd
    · subst he
      rw [updateTrustScore_userReviews, hSrev] at hq
      rcases List.mem_append.mp hq with hq2 | hq2
      · exact hC x q hq2
      · rw [List.mem_singleton] at hq2
        subst hq2
        exact ⟨hr1, hr5⟩
    · rw [updateTrustScore_userReviews, hSrev2 x he] at hq
      exact hC x q hq
  · intro k hk
    rw [updateTrustScore_requests, hSreq] at hk ⊢
    obtain ⟨h1, h2⟩ := hD k hk
    refine ⟨h1, ?_⟩
    by_cases he : (s.requests k).helper = rvd
    · rw [he]
      simp only [husers, hSusers]
      rw [he] at h2
      exact h2
    · rw [updateTrustScore_users_ne S rvd _ he, hSusers]
      exact h2
  · intro k hk
    rw [updateTrustScore_requests, hSreq] at hk ⊢
    have h2 := hE k hk
    by_cases he : (s.requests k).requester = rvd
    · rw [he]
      simp only [husers, hSusers]
      rw [he] at h2
      exact h2
    · rw [updateTrustScore_users_ne S rvd _ he, hSusers]
      exact h2

theorem step_trust (s : State) (c : Command)
    (hsd : Command.sender c ≠ 0) (h : TrustInv s) : TrustInv (step s c) := by
  cases hc : exec s c with
  | error e => rw [step_eq_of_error s c e hc]; exact h
  | ok t =>
    rw [step_eq_of_ok s c t hc]
    cases c with
    | register sd nm loc =>
      obtain ⟨hreg, ht⟩ := registerUser_ok s sd nm loc t hc
      rw [ht]
      exact trust_newUser s sd nm loc hsd hreg h
    | create sd ti d l ht2 ts =>
      obtain ⟨-, -, ht⟩ := createRequest_ok s sd ti d l ht2 ts t hc
      rw [ht]
      obtain ⟨hA, hB, hC, hD, hE⟩ := ensureUser_trust s sd l hsd h
      refine ⟨?_, ?_, fun x q hq => hC x q hq, ?_, ?_⟩
      · intro x hx
        by_cases he : x = sd
        · subst he
          simp only [mapSet_self] at hx ⊢
          exact hA x hx
        · simp only [mapSet_ne _ _ _ _ he] at hx ⊢
          exact hA x hx
      · intro x hx0 hxreg
        by_cases he : x = sd
        · subst he
          simp only [mapSet_self] at hxreg
          rw [ensureUser_registered s x l] at hxreg
          exact Bool.noConfusion hxreg
        · simp only [mapSet_ne _ _ _ _ he] at hxreg
          exact hB x hx0 hxreg
      · intro k hk
        by_cases he : k = (ensureUser s sd l).requestCount + 1
        · subst he
          simp only [mapSet_self] at hk
          simp at hk
        · simp only [mapSet_ne _ _ _ _ he] at hk ⊢
          obtain ⟨h1, h2⟩ := hD k hk
          refine ⟨h1, ?_⟩
          by_cases he2 : ((ensureUser s sd l).requests k).helper = sd
          · rw [he2]
            simp only [mapSet_self]
            exact ensureUser_registered s sd l
          · simp only [mapSet_ne _ _ _ _ he2]
            exact h2
      · intro k hk
        by_cases he : k = (ensureUser s sd l).requestCount + 1
        · subst he
          simp only [mapSet_self] at hk ⊢
          exact ensureUser_registered s sd l
        · simp only [mapSet_ne _ _ _ _ he] at hk ⊢
          have h2 := hE k hk
          by_cases he2 : ((ensureUser s sd l).requests k).requester = sd
          · rw [he2]
            simp only [mapSet_self]
            exact ensureUser_registered s sd l
          · simp only [mapSet_ne _ _ _ _ he2]
            exact h2
    | accept sd rid =>
      obtain ⟨hopen, hself, ht⟩ := acceptRequest_ok s sd rid t hc
      rw [ht]
      obtain ⟨hA, hB, hC, hD, hE⟩ := ensureUser_trust s sd "" hsd h
      refine ⟨?_, ?_, fun x q hq => hC x q hq, ?_, ?_⟩
      · intro x hx
        by_cases he : x = sd
        · subst he
          simp only [mapSet_self] at hx ⊢
          exact hA x hx
        · simp only [mapSet_ne _ _ _ _ he] at hx ⊢
          exact hA x hx
      · intro x hx0 hxreg
        by_cases he : x = sd
        · subst he
          simp only [mapSet_self] at hxreg
          rw [ensureUser_registered s x ""] at hxreg
          exact Bool.noConfusion hxreg
        · simp only [mapSet_ne _ _ _ _ he] at hxreg
          exact hB x hx0 hxreg
      · intro k hk
        by_cases he : k = rid
        · subst he
          simp only [mapSet_self] at hk ⊢
          refine ⟨hsd, ?_⟩
          exact ensureUser_registered s sd ""
        · simp only [mapSet_ne _ _ _ _ he] at hk ⊢
          obtain ⟨h1, h2⟩ := hD k hk
          refine ⟨h1, ?_⟩
          by_cases he2 : ((ensureUser s sd "").requests k).helper = sd
          · rw [he2]
            simp only [mapSet_self]
            exact ensureUser_registered s sd ""
          · simp only [mapSet_ne _ _ _ _ he2]
            exact h2
      · intro k hk
        by_cases he : k = rid
        · subst he
          simp only [mapSet_self] at hk ⊢
          have h2 := hE k hk
          by_cases he2 : ((ensureUser s sd "").requests k).requester = sd
          · rw [he2]
            simp only [mapSet_self]
            exact ensureUser_registered s sd ""
          · simp only [mapSet_ne _ _ _ _ he2]
            exact h2
        · simp only [mapSet_ne _ _ _ _ he] at hk ⊢
          have h2 := hE k hk
          by_cases he2 : ((ensureUser s sd "").requests k).requester = sd
          · rw [he2]
            simp only [mapSet_self]
            exact ensureUser_registered s sd ""
          · simp only [mapSet_ne _ _ _ _ he2]
            exact h2
    | complete sd rid =>
      obtain ⟨-, hmat, ht⟩ := completeRequest_ok s sd rid t hc
      rw [ht]
      obtain ⟨hA, hB, hC, hD, hE⟩ := h
      refine ⟨fun x hx => hA x hx, fun x hx0 hxreg => hB x hx0 hxreg,
        fun x q hq => hC x q hq, ?_, ?_⟩
      · intro k hk
        by_cases he : k = rid
        · subst he
          simp only [mapSet_self] at hk ⊢
          exact hD k (Or.inl hmat)
        · simp only [mapSet_ne _ _ _ _ he] at hk ⊢
          exact hD k hk
      · intro k hk
        by_cases he : k = rid
        · subst he
          simp only [mapSet_self] at hk ⊢
          exact hE k hk
        · simp only [mapSet_ne _ _ _ _ he] at hk ⊢
          exact hE k hk
    | review sd rid rvd rat cm ts =>
      obtain ⟨hr1, hr5, hpair, hcompleted, ht⟩ :=
        submitReview_ok s sd rid rvd rat cm ts t hc
      have hrvd : rvd = 0 ∨ (rvd ≠ 0 ∧ (s.users rvd).registered = true) := by
        rcases hpair with ⟨-, h2⟩ | ⟨-, h2⟩
        · obtain ⟨hne0, hreg2⟩ := h.2.2.2.1 rid (Or.inr hcompleted)
          right
          rw [h2]
          exact ⟨hne0, hreg2⟩
        · by_cases h0 : (s.requests rid).requester = 0
          · left
            rw [h2, h0]
          · right
            rw [h2]
            exact ⟨h0, h.2.2.2.2 rid h0⟩
      rw [ht]
      exact trust_review s _ rvd
        { reviewer := sd, reviewed := rvd, requestId := rid, rating := rat,
          comment := cm, timestamp := ts }
        hr1 hr5 rfl rfl rfl hrvd ⟨h.1, h.2.1, h.2.2.1, h.2.2.2.1, h.2.2.2.2⟩

theorem run_trust (cmds : List Command)
    (hz : ∀ c ∈ cmds, Command.sender c ≠ 0) : TrustInv (run cmds) := by
  refine foldl_inv_nz TrustInv step_trust cmds initialState hz
    ⟨?_, ?_, ?_, ?_, ?_⟩
  · intro x hx
    exact Bool.noConfusion hx
  · intro x _ _
    rfl
  · intro x r hr
    exact absurd hr (List.not_mem_nil r)
  · intro k hk
    rcases hk with h | h <;> exact RequestStatus.noConfusion h
  · intro k hk
    exact absurd rfl hk

/-- Claim C7 (amended): for every run of commands issued by nonzero
identities and every identity that has an account (registered or
auto-registered — an identity with no account keeps the storage default
score 0, see the counterexample), the trust score equals 50 while no
review targets the identity, and once at least one does it equals
floor(sum of ratings times 20 over the number of ratings), an integer in
[20, 100]. -/
theorem C7_trust_score (cmds : List Command)
    (hz : ∀ c ∈ cmds, Command.sender c ≠ 0) (x : Nat)
    (hx : ((run cmds).users x).registered = true) :
    ((run cmds).userReviews x = [] →
      ((run cmds).users x).trustScore = 50) ∧
    ((run cmds).userReviews x ≠ [] →
      ((run cmds).users x).trustScore =
        sumRatings ((run cmds).userReviews x) * 20 /
          ((run cmds).userReviews x).length ∧
      20 ≤ ((run cmds).users x).trustScore ∧
      ((run cmds).users x).trustScore ≤ 100) := by
  obtain ⟨hA, -, hC, -, -⟩ := run_trust cmds hz
  have hscore := hA x hx
  constructor
  · intro hempty
    rw [hscore]
    simp [trustExpected, hempty]
  · intro hne
    have hlen : ((run cmds).userReviews x).length ≠ 0 := by
      intro h0
      exact hne (List.length_eq_zero.mp h0)
    have hTE : trustExpected (run cmds) x =
        sumRatings ((run cmds).userReviews x) * 20 /
          ((run cmds).userReviews x).length := by
      simp [trustExpected, hlen]
    obtain ⟨hb1, hb2⟩ :=
      avg_bounds ((run cmds).userReviews x) hne (fun r hr => hC x r hr)
    exact ⟨by rw [hscore, hTE], by rw [hscore, hTE]; exact hb1,
      by rw [hscore, hTE]; exact hb2⟩

/-- Claim C7 is refuted as stated at a concrete input: after the command
register(1, Alice, Paris), identity 5 has no account and no review targets
it, yet its stored trust score is the storage default 0, not 50. -/
theorem C7_counterexample :
    sAlice.userReviews 5 = [] ∧
    (sAlice.users 5).trustScore = 0 ∧
    (sAlice.users 5).trustScore ≠ 50 :=
  ⟨rfl, rfl, by decide⟩

/-- Witness for C7: after the demo run plus one five star review of the
helper (identity 2), the trust score of identity 2 follows the recompute
formula and lies within the bounds. -/
theorem C7_trust_score_witness :
    (run (demoCmds ++ [Command.review 1 1 2 5 "great" 0])).userReviews 2
      ≠ [] ∧
    ((run (demoCmds ++ [Command.review 1 1 2 5 "great" 0])).users 2
      ).trustScore =
      sumRatings ((run (demoCmds ++
        [Command.review 1 1 2 5 "great" 0])).userReviews 2) * 20 /
      ((run (demoCmds ++
        [Command.review 1 1 2 5 "great" 0])).userReviews 2).length ∧
    20 ≤ ((run (demoCmds ++
      [Command.review 1 1 2 5 "great" 0])).users 2).trustScore ∧
    ((run (demoCmds ++
      [Command.review 1 1 2 5 "great" 0])).users 2).trustScore ≤ 100 := by
  have h := C7_trust_score (demoCmds ++ [Command.review 1 1 2 5 "great" 0])
    (by decide) 2 (by decide)
  have hne : (run (demoCmds ++
      [Command.review 1 1 2 5 "great" 0])).userReviews 2 ≠ [] := by decide
  exact ⟨hne, (h.2 hne).1, (h.2 hne).2.1, (h.2 hne).2.2⟩
